import Mathlib

/-!
Shallow embedding of the hybrid reliability scoring computations of
`pages/03_Confiabilidade_Hibridos.py` (lines 491-573) and of the
Z-probability table of `pages/02_Analise_Dados.py` (lines 646-685).

Floating-point arithmetic is modelled over `ℝ`: the `pandas` calls
`mean()` / `std()` become the exact arithmetic mean and the sample standard
deviation (denominator `n - 1`, pandas default `ddof = 1`), and
`scipy.stats.norm.cdf` is an abstract parameter `cdf : ℝ → ℝ` (theorems that
need its properties assume monotonicity and range inside `[0, 1]`).
Python's `round(x, 1)` becomes rounding to the nearest tenth.
-/

/-- Arithmetic mean `df_h.mean()`.  Division by zero yields `0` in Lean; the
pipeline only evaluates the mean on non-empty data. -/
noncomputable def media (xs : List ℝ) : ℝ := xs.sum / xs.length

/-- Sample variance with denominator `n - 1`, the square of pandas
`df_h.std()` (default `ddof = 1`). -/
noncomputable def varAmostral (xs : List ℝ) : ℝ :=
  ((xs.map (fun x => (x - media xs) ^ 2)).sum) / ((xs.length : ℝ) - 1)

/-- Sample standard deviation `df_h.std()`. -/
noncomputable def stdAmostral (xs : List ℝ) : ℝ := Real.sqrt (varAmostral xs)

/-- Line 507 of `03_Confiabilidade_Hibridos.py` and line 656 of
`02_Analise_Dados.py`: `(std / media * 100) if media != 0 else 0`. -/
noncomputable def cv_hibrido (m s : ℝ) : ℝ := if m ≠ 0 then s / m * 100 else 0

/-- Lines 509-517 of `03_Confiabilidade_Hibridos.py`: probability (under the
given cumulative distribution function) of falling within 10% of the
hybrid's mean; `100.0` when the standard deviation is zero.  No clamping is
performed by the source. -/
noncomputable def prob_z (cdf : ℝ → ℝ) (xs : List ℝ) : ℝ :=
  if stdAmostral xs > 0 then
    (cdf ((media xs * 1.10 - media xs) / stdAmostral xs)
        - cdf ((media xs * 0.90 - media xs) / stdAmostral xs)) * 100
  else 100.0

/-- Number of observations at or above `t`: `(df_h >= limiar).sum()`. -/
noncomputable def countGe (t : ℝ) : List ℝ → ℕ
  | [] => 0
  | x :: xs => (if t ≤ x then 1 else 0) + countGe t xs

/-- Number of observations strictly below `t`: `(df_h < limiar).sum()`. -/
noncomputable def countLt (t : ℝ) : List ℝ → ℕ
  | [] => 0
  | x :: xs => (if x < t then 1 else 0) + countLt t xs

/-- Lines 519-521: share of observations at or above the success
threshold. -/
noncomputable def taxa_sucesso (xs : List ℝ) (limiar : ℝ) : ℝ :=
  (countGe limiar xs : ℝ) / (xs.length : ℝ) * 100

/-- Lines 523-526: share of observations below 80% of the hybrid's own
mean. -/
noncomputable def risco_frustracao (xs : List ℝ) : ℝ :=
  (countLt (media xs * 0.80) xs : ℝ) / (xs.length : ℝ) * 100

/-- Lines 528-536: discrete confidence factor from the number of
observations. -/
def fator_obs (n : ℕ) : ℕ :=
  if n ≥ 20 then 100 else if n ≥ 10 then 80 else if n ≥ 5 then 60 else 40

/-- Lines 538-544: the weighted composite reliability score. -/
noncomputable def score_conf (cdf : ℝ → ℝ) (limiar : ℝ) (xs : List ℝ) : ℝ :=
  prob_z cdf xs * 0.35 + taxa_sucesso xs limiar * 0.35
    + (100 - risco_frustracao xs) * 0.20 + (fator_obs xs.length : ℝ) * 0.10

/-- Lines 546-554: classification of the score (emoji prefixes elided). -/
noncomputable def classificar (s : ℝ) : String :=
  if s ≥ 80 then "Excelente" else if s ≥ 65 then "Bom"
  else if s ≥ 50 then "Regular" else "Baixo"

/-- Python `round(x, 1)`: round to the nearest tenth. -/
noncomputable def round1 (x : ℝ) : ℝ := ((round (x * 10) : ℤ) : ℝ) / 10

/-- One row of the reliability table, lines 556-566. -/
structure Registro where
  hibrido : String
  observacoes : ℕ
  media : ℝ
  cv : ℝ
  probZ : ℝ
  taxaSucesso : ℝ
  risco : ℝ
  score : ℝ
  classificacao : String

/-- Lines 503-566: the record appended for one hybrid whose observation list
is `xs`; every numeric field except the count is rounded to one decimal when
stored. -/
noncomputable def registroDe (cdf : ℝ → ℝ) (limiar : ℝ) (h : String) (xs : List ℝ) : Registro :=
  { hibrido := h
    observacoes := xs.length
    media := round1 (media xs)
    cv := round1 (cv_hibrido (media xs) (stdAmostral xs))
    probZ := round1 (prob_z cdf xs)
    taxaSucesso := round1 (taxa_sucesso xs limiar)
    risco := round1 (risco_frustracao xs)
    score := round1 (score_conf cdf limiar xs)
    classificacao := classificar (score_conf cdf limiar xs) }

/-- Concatenation of per-hybrid observation lists: models the production
column of `df_analise`, whose rows are exactly those of the selected
hybrids. -/
def juntar : List (List ℝ) → List ℝ
  | [] => []
  | l :: ls => l ++ juntar ls

/-- Line 494: `media_geral = df_analise[coluna_producao].mean()`. -/
noncomputable def mediaGeral (hibridos : List String) (obs : String → List ℝ) : ℝ :=
  media (juntar (hibridos.map obs))

/-- Lines 498-566: the `resultados` loop; a hybrid with fewer than two
observations is skipped entirely by the guard `if len(df_h) > 1`. -/
noncomputable def resultados (cdf : ℝ → ℝ) (hibridos : List String) (obs : String → List ℝ) :
    List Registro :=
  hibridos.filterMap (fun h =>
    if 1 < (obs h).length then
      some (registroDe cdf (mediaGeral hibridos obs * 0.80) h (obs h))
    else none)

/-- Insertion into a list already sorted by descending score, keeping the
inserted record in front of later ties: models line 570,
`sort_values('Score', ascending=False)`, which applies no secondary key. -/
noncomputable def insereDesc (r : Registro) : List Registro → List Registro
  | [] => [r]
  | s :: rest => if s.score ≤ r.score then r :: s :: rest else s :: insereDesc r rest

/-- Line 570: sort of the records by descending (rounded) score. -/
noncomputable def ordenaPorScore : List Registro → List Registro
  | [] => []
  | r :: rest => insereDesc r (ordenaPorScore rest)

/-- Lines 658-667 of `02_Analise_Dados.py`: the Z-probability formula of the
data-analysis page. -/
noncomputable def probabilidade_pagina2 (cdf : ℝ → ℝ) (xs : List ℝ) : ℝ :=
  if stdAmostral xs > 0 then
    (cdf ((media xs * 1.10 - media xs) / stdAmostral xs)
        - cdf ((media xs * 0.90 - media xs) / stdAmostral xs)) * 100
  else 100.0

/-- One row of the probability table of `02_Analise_Dados.py`
(lines 669-685). -/
structure LinhaProb where
  hibrido : String
  observacoes : ℕ
  media : ℝ
  desvioPadrao : ℝ
  cv : ℝ
  prob : Option ℝ

/-- Lines 652-685: the row appended for one hybrid on the data-analysis
page; a single observation yields a row with `None` probability and a zero
standard deviation and CV; empty data yields nothing. -/
noncomputable def linhaProbDe (cdf : ℝ → ℝ) (h : String) (xs : List ℝ) : Option LinhaProb :=
  if 1 < xs.length then
    some { hibrido := h, observacoes := xs.length, media := round1 (media xs),
           desvioPadrao := round1 (stdAmostral xs),
           cv := round1 (cv_hibrido (media xs) (stdAmostral xs)),
           prob := some (round1 (probabilidade_pagina2 cdf xs)) }
  else if xs.length = 1 then
    some { hibrido := h, observacoes := 1, media := round1 (media xs),
           desvioPadrao := 0, cv := 0, prob := none }
  else none

/-- Lines 647-685: the `probabilidades` loop of `02_Analise_Dados.py`. -/
noncomputable def probabilidades (cdf : ℝ → ℝ) (hibridos : List String)
    (obs : String → List ℝ) : List LinhaProb :=
  hibridos.filterMap (fun h => linhaProbDe cdf h (obs h))

/-- Modelled from the spec: `compute_success_rate(hybrid_observations,
reference_mean, threshold_ratio)` with threshold `reference_mean ×
threshold_ratio`.  The source hardcodes the ratio to `0.80`
(line 495, `limiar_sucesso = media_geral * 0.80`); the ratio parameter is
the configuration knob of spec section 6. -/
noncomputable def taxaComRazao (xs : List ℝ) (mediaRef razao : ℝ) : ℝ :=
  taxa_sucesso xs (mediaRef * razao)

/-- A concrete strictly increasing sigmoid with values in `(0, 1)`,
`cdfS 0 = 1/2` and `cdfS (-z) = 1 - cdfS z`: a stand-in satisfying the
spec's contract for the standard normal CDF, used to instantiate the
abstract `cdf` parameter on concrete inputs. -/
noncomputable def cdfS (z : ℝ) : ℝ := 1 / 2 + z / (2 * (1 + |z|))

theorem cdfS_bounds (z : ℝ) : 0 ≤ cdfS z ∧ cdfS z ≤ 1 := by
  have h1 : |z / (2 * (1 + |z|))| ≤ 1 / 2 := by
    rw [abs_div, abs_of_pos (by positivity : (0 : ℝ) < 2 * (1 + |z|))]
    rw [div_le_iff₀ (by positivity)]
    nlinarith [abs_nonneg z]
  have h2 := abs_le.mp h1
  unfold cdfS
  constructor <;> linarith [h2.1, h2.2]

theorem cdfS_mono : Monotone cdfS := by
  intro a b hab
  have key : a * (1 + |b|) ≤ b * (1 + |a|) := by
    rcases le_or_lt 0 a with h0a | h0a
    · have h0b : 0 ≤ b := le_trans h0a hab
      rw [abs_of_nonneg h0a, abs_of_nonneg h0b]
      nlinarith
    · rcases le_or_lt 0 b with h0b | h0b
      · have l1 : a * (1 + |b|) ≤ 0 := by
          have : (0 : ℝ) < 1 + |b| := by positivity
          nlinarith
        have l2 : 0 ≤ b * (1 + |a|) := by
          have : (0 : ℝ) < 1 + |a| := by positivity
          nlinarith
        linarith
      · rw [abs_of_neg h0a, abs_of_neg h0b]
        nlinarith
  unfold cdfS
  have hdiv : a / (2 * (1 + |a|)) ≤ b / (2 * (1 + |b|)) := by
    rw [div_le_div_iff₀ (by positivity) (by positivity)]
    nlinarith [key]
  linarith

theorem round1_idem (x : ℝ) : round1 (round1 x) = round1 x := by
  unfold round1
  have h : ((round (x * 10) : ℤ) : ℝ) / 10 * 10 = ((round (x * 10) : ℤ) : ℝ) := by
    field_simp
  rw [h, round_intCast]

/-- C5: `cv_hibrido` returns `0` when the mean is zero and
`std_dev / mean × 100` otherwise; it is a total function (never raises). -/
theorem c5_cv_zero (m s : ℝ) :
    (m = 0 → cv_hibrido m s = 0) ∧ (m ≠ 0 → cv_hibrido m s = s / m * 100) := by
  constructor
  · intro h; simp [cv_hibrido, h]
  · intro h; simp [cv_hibrido, h]

theorem c5_witness :
    ((0 : ℝ) = 0 ∧ cv_hibrido 0 7 = 0) ∧ ((2 : ℝ) ≠ 0 ∧ cv_hibrido 2 3 = 3 / 2 * 100) :=
  ⟨⟨rfl, (c5_cv_zero 0 7).1 rfl⟩, ⟨by norm_num, (c5_cv_zero 2 3).2 (by norm_num)⟩⟩

/-- C5 counterexample: at `mean = 0` the code returns the number `0`, not an
undefined sentinel. -/
theorem c5_counterexample : cv_hibrido 0 5 = 0 := by
  simp [cv_hibrido]

/-- C8: `fator_obs` is the exact step function of the spec, with the stated
boundary semantics at 19 and 20 observations. -/
theorem c8_fator (n : ℕ) :
    ((20 ≤ n → fator_obs n = 100) ∧ (10 ≤ n → n < 20 → fator_obs n = 80)
      ∧ (5 ≤ n → n < 10 → fator_obs n = 60) ∧ (n < 5 → fator_obs n = 40))
    ∧ fator_obs 19 = 80 ∧ fator_obs 20 = 100 := by
  refine ⟨⟨?_, ?_, ?_, ?_⟩, by decide, by decide⟩
  all_goals
    intros
    unfold fator_obs
    split_ifs <;> omega

theorem c8_witness : (20 ≤ 25 ∧ fator_obs 25 = 100) ∧ (10 ≤ 12 ∧ 12 < 20 ∧ fator_obs 12 = 80) :=
  ⟨⟨by decide, ((c8_fator 25).1).1 (by decide)⟩,
   ⟨by decide, by decide, (((c8_fator 12).1).2).1 (by decide) (by decide)⟩⟩

/-- C9: the Z-probability of the reliability page and the one of the
data-analysis page are the same function of the observations, for every
cumulative distribution function. -/
theorem c9_paginas_iguais (cdf : ℝ → ℝ) (xs : List ℝ) :
    prob_z cdf xs = probabilidade_pagina2 cdf xs := rfl

/-- C10: the pipeline is deterministic; identical inputs (hybrid list and
observation mapping) produce identical records, field for field. -/
theorem c10_determinismo (cdf : ℝ → ℝ) (hib1 hib2 : List String)
    (obs1 obs2 : String → List ℝ) (hh : hib1 = hib2) (ho : ∀ s, obs1 s = obs2 s) :
    resultados cdf hib1 obs1 = resultados cdf hib2 obs2 := by
  subst hh
  have h : obs1 = obs2 := funext ho
  rw [h]

theorem c10_witness :
    resultados cdfS ["A"] (fun _ => ([1, 2] : List ℝ))
      = resultados cdfS ["A"] (fun _ => ([1, 2] : List ℝ)) :=
  c10_determinismo cdfS ["A"] ["A"] (fun _ => ([1, 2] : List ℝ))
    (fun _ => ([1, 2] : List ℝ)) rfl (fun _ => rfl)

/-- C1 (amended): without any clamping in the source, the Z probability is
the raw CDF difference times 100 whenever the standard deviation is
positive, and it lies in `[0, 100]` whenever the mean of the observations is
non-negative, for every monotone CDF with values in `[0, 1]`. -/
theorem c1_prob_z_intervalo (cdf : ℝ → ℝ) (xs : List ℝ)
    (hmono : Monotone cdf) (hb : ∀ z, 0 ≤ cdf z ∧ cdf z ≤ 1)
    (hn : 2 ≤ xs.length) (hm : 0 ≤ media xs) :
    (0 ≤ prob_z cdf xs ∧ prob_z cdf xs ≤ 100)
    ∧ (stdAmostral xs > 0 →
        prob_z cdf xs = (cdf ((media xs * 1.10 - media xs) / stdAmostral xs)
          - cdf ((media xs * 0.90 - media xs) / stdAmostral xs)) * 100) := by
  constructor
  · unfold prob_z
    split_ifs with hs
    · have hnum : media xs * 0.90 - media xs ≤ media xs * 1.10 - media xs := by nlinarith
      have hz : (media xs * 0.90 - media xs) / stdAmostral xs
          ≤ (media xs * 1.10 - media xs) / stdAmostral xs := by
        apply div_le_div_of_nonneg_right hnum hs.le
      have hcdf := hmono hz
      have hb1 := hb ((media xs * 0.90 - media xs) / stdAmostral xs)
      have hb2 := hb ((media xs * 1.10 - media xs) / stdAmostral xs)
      constructor <;> nlinarith
    · norm_num
  · intro hs
    unfold prob_z
    rw [if_pos hs]

theorem c1_witness :
    Monotone cdfS ∧ (∀ z, 0 ≤ cdfS z ∧ cdfS z ≤ 1)
    ∧ 2 ≤ ([8, 10, 12] : List ℝ).length ∧ 0 ≤ media ([8, 10, 12] : List ℝ)
    ∧ (0 ≤ prob_z cdfS [8, 10, 12] ∧ prob_z cdfS [8, 10, 12] ≤ 100) :=
  ⟨cdfS_mono, cdfS_bounds, by norm_num,
   by norm_num [media, List.sum_cons, List.sum_nil],
   (c1_prob_z_intervalo cdfS [8, 10, 12] cdfS_mono cdfS_bounds (by norm_num)
     (by norm_num [media, List.sum_cons, List.sum_nil])).1⟩

/-- C1 counterexample: for a CDF satisfying the spec's contract and the
negative-mean observation list `[-10, -8, -6]` (sample standard deviation
`2`), the code produces a strictly negative Z probability, outside
`[0, 100]`: nothing is clamped. -/
theorem c1_counterexample :
    Monotone cdfS ∧ (∀ z, 0 ≤ cdfS z ∧ cdfS z ≤ 1)
    ∧ 2 ≤ ([-10, -8, -6] : List ℝ).length
    ∧ prob_z cdfS [-10, -8, -6] < 0 := by
  refine ⟨cdfS_mono, cdfS_bounds, by norm_num, ?_⟩
  have hmedia : media ([-10, -8, -6] : List ℝ) = -8 := by
    norm_num [media, List.sum_cons, List.sum_nil]
  have hvar : varAmostral ([-10, -8, -6] : List ℝ) = 4 := by
    norm_num [varAmostral, hmedia, List.sum_cons, List.sum_nil, List.map]
  have hstd : stdAmostral ([-10, -8, -6] : List ℝ) = 2 := by
    rw [stdAmostral, hvar, show (4 : ℝ) = 2 ^ 2 by norm_num,
      Real.sqrt_sq (by norm_num : (0 : ℝ) ≤ 2)]
  unfold prob_z
  rw [hmedia, hstd, if_pos (by norm_num : (2 : ℝ) > 0)]
  have e1 : ((-8 : ℝ) * 1.10 - -8) / 2 = -2 / 5 := by norm_num
  have e2 : ((-8 : ℝ) * 0.90 - -8) / 2 = 2 / 5 := by norm_num
  rw [e1, e2]
  have v1 : cdfS (-2 / 5) = 1 / 2 - 1 / 7 := by
    rw [cdfS, abs_of_neg (by norm_num : (-2 / 5 : ℝ) < 0)]
    norm_num
  have v2 : cdfS (2 / 5) = 1 / 2 + 1 / 7 := by
    rw [cdfS, abs_of_nonneg (by norm_num : (0 : ℝ) ≤ 2 / 5)]
    norm_num
  rw [v1, v2]
  norm_num

theorem countGe_anti (xs : List ℝ) (t1 t2 : ℝ) (h : t1 ≤ t2) :
    countGe t2 xs ≤ countGe t1 xs := by
  induction xs with
  | nil => simp [countGe]
  | cons x rest ih =>
    simp only [countGe]
    have hx : (if t2 ≤ x then (1 : ℕ) else 0) ≤ (if t1 ≤ x then (1 : ℕ) else 0) := by
      split_ifs with h2 h1
      · exact le_refl _
      · exact absurd (le_trans h h2) h1
      · exact Nat.zero_le _
      · exact le_refl _
    exact Nat.add_le_add hx ih

/-- C7 (amended): with a non-negative reference mean, raising the success
threshold ratio never increases the success rate. -/
theorem c7_monotonia (xs : List ℝ) (mg r1 r2 : ℝ) (hmg : 0 ≤ mg) (hr : r1 ≤ r2) :
    taxaComRazao xs mg r2 ≤ taxaComRazao xs mg r1 := by
  unfold taxaComRazao taxa_sucesso
  have hth : mg * r1 ≤ mg * r2 := mul_le_mul_of_nonneg_left hr hmg
  have hc : ((countGe (mg * r2) xs : ℕ) : ℝ) ≤ ((countGe (mg * r1) xs : ℕ) : ℝ) :=
    Nat.cast_le.mpr (countGe_anti xs (mg * r1) (mg * r2) hth)
  rcases Nat.eq_zero_or_pos xs.length with h0 | h0
  · rw [h0]
    simp
  · have hlen : (0 : ℝ) < (xs.length : ℝ) := by exact_mod_cast h0
    have hdiv : ((countGe (mg * r2) xs : ℕ) : ℝ) / (xs.length : ℝ)
        ≤ ((countGe (mg * r1) xs : ℕ) : ℝ) / (xs.length : ℝ) :=
      (div_le_div_iff_of_pos_right hlen).mpr hc
    exact mul_le_mul_of_nonneg_right hdiv (by norm_num)

theorem c7_witness :
    (0 : ℝ) ≤ 10 ∧ (0.80 : ℝ) ≤ 0.90
    ∧ taxaComRazao [(9 : ℝ)] 10 0.90 ≤ taxaComRazao [(9 : ℝ)] 10 0.80 :=
  ⟨by norm_num, by norm_num,
   c7_monotonia [(9 : ℝ)] 10 0.80 0.90 (by norm_num) (by norm_num)⟩

/-- C7 counterexample: with a negative reference mean (`-10`) and
observations `[-8.5, -8.5]`, raising the threshold ratio from `0.80` to
`1.00` raises the success rate from `0` to `100`. -/
theorem c7_counterexample :
    (0.80 : ℝ) ≤ 1.00
    ∧ taxaComRazao [(-8.5 : ℝ), -8.5] (-10) 0.80
        < taxaComRazao [(-8.5 : ℝ), -8.5] (-10) 1.00 := by
  refine ⟨by norm_num, ?_⟩
  unfold taxaComRazao taxa_sucesso
  have h1 : countGe ((-10) * 0.80) [(-8.5 : ℝ), -8.5] = 0 := by
    simp only [countGe]
    rw [if_neg (by norm_num)]
  have h2 : countGe ((-10) * 1.00) [(-8.5 : ℝ), -8.5] = 2 := by
    simp only [countGe]
    rw [if_pos (by norm_num)]
  rw [h1, h2]
  norm_num

/-- C2 (amended): a reliability record for a hybrid exists exactly when the
hybrid has at least two observations (a single observation produces no
record at all, hence no score and no tier), while the data-analysis page
does append a row for a single observation, with undefined (`None`)
probability and a standard deviation and CV reported as `0`. -/
theorem c2_registro_sse_duas_obs (cdf : ℝ → ℝ) (hibridos : List String)
    (obs : String → List ℝ) (h : String) (hmem : h ∈ hibridos) :
    ((∃ r ∈ resultados cdf hibridos obs, r.hibrido = h) ↔ 2 ≤ (obs h).length)
    ∧ ((obs h).length = 1 →
        ∃ L ∈ probabilidades cdf hibridos obs,
          L.hibrido = h ∧ L.prob = none ∧ L.cv = 0 ∧ L.desvioPadrao = 0
            ∧ L.observacoes = 1) := by
  constructor
  · constructor
    · rintro ⟨r, hr, hrh⟩
      unfold resultados at hr
      rcases List.mem_filterMap.mp hr with ⟨h2, hh2, heq⟩
      by_cases hlen : 1 < (obs h2).length
      · rw [if_pos hlen] at heq
        have hr2 : r = registroDe cdf (mediaGeral hibridos obs * 0.80) h2 (obs h2) :=
          (Option.some.inj heq).symm
        have hhh : h2 = h := by
          rw [hr2] at hrh
          exact hrh
        rw [hhh] at hlen
        omega
      · rw [if_neg hlen] at heq
        simp at heq
    · intro hlen
      refine ⟨registroDe cdf (mediaGeral hibridos obs * 0.80) h (obs h), ?_, rfl⟩
      unfold resultados
      refine List.mem_filterMap.mpr ⟨h, hmem, ?_⟩
      rw [if_pos (by omega : 1 < (obs h).length)]
  · intro h1
    refine ⟨{ hibrido := h, observacoes := 1, media := round1 (media (obs h)),
              desvioPadrao := 0, cv := 0, prob := none },
            ?_, rfl, rfl, rfl, rfl, rfl⟩
    unfold probabilidades
    refine List.mem_filterMap.mpr ⟨h, hmem, ?_⟩
    unfold linhaProbDe
    rw [if_neg (by omega), if_pos h1]

theorem c2_witness :
    ((∃ r ∈ resultados cdfS ["B"] (fun _ => ([100] : List ℝ)), r.hibrido = "B")
        ↔ 2 ≤ ((fun _ => ([100] : List ℝ)) "B").length)
    ∧ (((fun _ => ([100] : List ℝ)) "B").length = 1 →
        ∃ L ∈ probabilidades cdfS ["B"] (fun _ => ([100] : List ℝ)),
          L.hibrido = "B" ∧ L.prob = none ∧ L.cv = 0 ∧ L.desvioPadrao = 0
            ∧ L.observacoes = 1) :=
  c2_registro_sse_duas_obs cdfS ["B"] (fun _ => ([100] : List ℝ)) "B" (by simp)

/-- C2 counterexample: a hybrid whose observation list is `[100]` yields an
empty result list on the reliability page — no record with an UNDEFINED
tier is produced, contrary to the claim. -/
theorem c2_counterexample : resultados cdfS ["B"] (fun _ => ([100] : List ℝ)) = [] := by
  unfold resultados
  simp

/-- C3: for every hybrid with at least two observations, the pipeline emits
a record whose score is (the rounding of) exactly
`prob_z×0.35 + success_rate×0.35 + (100 − frustration_risk)×0.20 +
fator_obs(n)×0.10`, with no renormalization; hybrids missing a component
(fewer than two observations) get no score at all (see C2). -/
theorem c3_formula_score (cdf : ℝ → ℝ) (hibridos : List String) (obs : String → List ℝ)
    (h : String) (hmem : h ∈ hibridos) (hn : 2 ≤ (obs h).length) :
    ∃ r ∈ resultados cdf hibridos obs, r.hibrido = h ∧
      r.score = round1 (prob_z cdf (obs h) * 0.35
        + taxa_sucesso (obs h) (mediaGeral hibridos obs * 0.80) * 0.35
        + (100 - risco_frustracao (obs h)) * 0.20
        + (fator_obs (obs h).length : ℝ) * 0.10) := by
  refine ⟨registroDe cdf (mediaGeral hibridos obs * 0.80) h (obs h), ?_, rfl, rfl⟩
  unfold resultados
  refine List.mem_filterMap.mpr ⟨h, hmem, ?_⟩
  rw [if_pos (by omega : 1 < (obs h).length)]

theorem c3_witness :
    ∃ r ∈ resultados cdfS ["A"] (fun _ => ([8, 10, 12] : List ℝ)), r.hibrido = "A" ∧
      r.score = round1 (prob_z cdfS [8, 10, 12] * 0.35
        + taxa_sucesso [8, 10, 12] (mediaGeral ["A"] (fun _ => ([8, 10, 12] : List ℝ)) * 0.80) * 0.35
        + (100 - risco_frustracao [8, 10, 12]) * 0.20
        + (fator_obs ([8, 10, 12] : List ℝ).length : ℝ) * 0.10) :=
  c3_formula_score cdfS ["A"] (fun _ => ([8, 10, 12] : List ℝ)) "A" (by simp) (by simp)

/-- C6 (amended): the engine itself rounds every numeric record field to one
decimal: each stored field is the one-decimal rounding of the full-precision
quantity, and is therefore invariant under a further one-decimal rounding
(rather than being a full-precision float). -/
theorem c6_arredondamento (cdf : ℝ → ℝ) (limiar : ℝ) (h : String) (xs : List ℝ) :
    (registroDe cdf limiar h xs).media = round1 (media xs)
    ∧ (registroDe cdf limiar h xs).score = round1 (score_conf cdf limiar xs)
    ∧ round1 ((registroDe cdf limiar h xs).media) = (registroDe cdf limiar h xs).media
    ∧ round1 ((registroDe cdf limiar h xs).score) = (registroDe cdf limiar h xs).score :=
  ⟨rfl, rfl, round1_idem (media xs), round1_idem (score_conf cdf limiar xs)⟩

/-- C6 counterexample: for observations `[10, 10, 11]` the stored mean is
`10.3`, not the full-precision mean `31/3 = 10.333…`: rounding happens
inside the engine, not only in the presentation layer. -/
theorem c6_counterexample :
    (registroDe cdfS 0 "A" [10, 10, 11]).media ≠ media ([10, 10, 11] : List ℝ) := by
  have hm : media ([10, 10, 11] : List ℝ) = 31 / 3 := by
    norm_num [media, List.sum_cons, List.sum_nil]
  have hfloor : ⌊(31 : ℝ) / 3 * 10 + 1 / 2⌋ = (103 : ℤ) := by
    rw [Int.floor_eq_iff]
    constructor <;> norm_num
  have hfield : (registroDe cdfS 0 "A" [10, 10, 11]).media = 103 / 10 := by
    show round1 (media ([10, 10, 11] : List ℝ)) = 103 / 10
    rw [hm]
    unfold round1
    rw [round_eq, hfloor]
    norm_num
  rw [hfield, hm]
  norm_num

theorem perm_insereDesc (r : Registro) (l : List Registro) :
    (insereDesc r l).Perm (r :: l) := by
  induction l with
  | nil => simp [insereDesc]
  | cons s rest ih =>
    simp only [insereDesc]
    split_ifs with hle
    · exact List.Perm.refl _
    · exact (List.Perm.cons s ih).trans (List.Perm.swap r s rest)

theorem sorted_insereDesc (r : Registro) (l : List Registro)
    (hl : l.Sorted (fun a b => b.score ≤ a.score)) :
    (insereDesc r l).Sorted (fun a b => b.score ≤ a.score) := by
  induction l with
  | nil => simp [insereDesc]
  | cons s rest ih =>
    simp only [insereDesc]
    rcases List.sorted_cons.mp hl with ⟨hs, hrest⟩
    split_ifs with hle
    · refine List.sorted_cons.mpr ⟨?_, hl⟩
      intro b hb
      rcases List.mem_cons.mp hb with hbr | hb2
      · rw [hbr]
        exact hle
      · exact le_trans (hs b hb2) hle
    · refine List.sorted_cons.mpr ⟨?_, ih hrest⟩
      intro b hb
      rcases List.mem_cons.mp ((perm_insereDesc r rest).mem_iff.mp hb) with hbr | hb2
      · rw [hbr]
        exact le_of_not_le hle
      · exact hs b hb2

/-- C4 (amended): the displayed ranking sorts the records by (rounded) score
descending — the result is a permutation of the engine's records, sorted by
the score order — but ties keep the engine's emission order (the order of
the selected hybrids): the code applies no `hybrid_id` tie-break. -/
theorem c4_ordenacao (rs : List Registro) :
    (ordenaPorScore rs).Sorted (fun a b => b.score ≤ a.score)
    ∧ (ordenaPorScore rs).Perm rs := by
  induction rs with
  | nil => simp [ordenaPorScore]
  | cons r rest ih =>
    simp only [ordenaPorScore]
    exact ⟨sorted_insereDesc r (ordenaPorScore rest) ih.1,
           (perm_insereDesc r (ordenaPorScore rest)).trans (ih.2.cons r)⟩

/-- C4 counterexample: hybrids `"B"` and `"A"` with identical observations
produce records with identical scores, yet the sorted output keeps `"B"`
first (the input order) although `"A" < "B"`: equal-score records are not
ordered by hybrid id ascending. -/
theorem c4_counterexample :
    ordenaPorScore (resultados cdfS ["B", "A"] (fun _ => ([8, 10, 12] : List ℝ)))
      = [registroDe cdfS (mediaGeral ["B", "A"] (fun _ => ([8, 10, 12] : List ℝ)) * 0.80) "B" [8, 10, 12],
         registroDe cdfS (mediaGeral ["B", "A"] (fun _ => ([8, 10, 12] : List ℝ)) * 0.80) "A" [8, 10, 12]]
    ∧ (registroDe cdfS (mediaGeral ["B", "A"] (fun _ => ([8, 10, 12] : List ℝ)) * 0.80) "B" [8, 10, 12]).score
        = (registroDe cdfS (mediaGeral ["B", "A"] (fun _ => ([8, 10, 12] : List ℝ)) * 0.80) "A" [8, 10, 12]).score
    ∧ ("A" : String) < "B" := by
  have hres : resultados cdfS ["B", "A"] (fun _ => ([8, 10, 12] : List ℝ))
      = [registroDe cdfS (mediaGeral ["B", "A"] (fun _ => ([8, 10, 12] : List ℝ)) * 0.80) "B" [8, 10, 12],
         registroDe cdfS (mediaGeral ["B", "A"] (fun _ => ([8, 10, 12] : List ℝ)) * 0.80) "A" [8, 10, 12]] := by
    unfold resultados
    simp
  have hsc : (registroDe cdfS (mediaGeral ["B", "A"] (fun _ => ([8, 10, 12] : List ℝ)) * 0.80) "B" [8, 10, 12]).score
      = (registroDe cdfS (mediaGeral ["B", "A"] (fun _ => ([8, 10, 12] : List ℝ)) * 0.80) "A" [8, 10, 12]).score := rfl
  have hAB : ("A" : String) < "B" := by
    simp only [String.lt_iff_toList_lt, String.toList, List.lt_iff_lex_lt]
    exact List.Lex.rel (by decide)
  refine ⟨?_, hsc, hAB⟩
  rw [hres]
  simp only [ordenaPorScore, insereDesc]
  rw [if_pos (le_of_eq hsc.symm)]
